import Mathlib

set_option autoImplicit false

namespace IGitt

/-- JSON values, as decoded from provider response bodies. -/
inductive Json where
  | null
  | bool (b : Bool)
  | num (n : Int)
  | str (s : String)
  | arr (items : List Json)
  | obj (fields : List (String × Json))

/-- Lookup of a key in a JSON object field list (Python dict indexing / dict.get). -/
def jfind : List (String × Json) → String → Option Json
  | [], _ => none
  | (k, v) :: rest, key => if key = k then some v else jfind rest key

def Json.lookup : Json → String → Option Json
  | .obj fields, key => jfind fields key
  | _, _ => none

def Json.getStr (j : Json) (key : String) : String :=
  match j.lookup key with
  | some (.str s) => s
  | _ => ""

def Json.getInt (j : Json) (key : String) : Int :=
  match j.lookup key with
  | some (.num n) => n
  | _ => 0

/-- The RuntimeError raised by the HTTP access layer on a non-2xx response:
it carries the decoded response body and the HTTP status code
(`RuntimeError(response.json(), response.status_code)`). -/
structure HttpError where
  body : Json
  status : Nat

/-- The error taxonomy surfaced by repository operations.
`alreadyExists` models `ElementAlreadyExistsError`, `doesntExist` models
`ElementDoesntExistError`, `runtime` models a `RuntimeError` raised locally with a
message, `typeErr` models a Python `TypeError` (e.g. concatenating `None` to a
string), and `http` wraps the transport failure of the access layer. -/
inductive Error where
  | alreadyExists (msg : String)
  | doesntExist (msg : String)
  | runtime (msg : String)
  | typeErr
  | http (e : HttpError)

/-- An HTTP request issued by an operation, in issue order. -/
inductive Request where
  | get (url : String) (params : Json)
  | post (url : String) (data : Json)
  | put (url : String) (data : Json)
  | delete (url : String) (params : Json)

/-- A request that can change provider state (anything but GET). -/
def Request.isWrite : Request → Bool
  | .get _ _ => false
  | _ => true

def Request.isPost : Request → Bool
  | .post _ _ => true
  | _ => false

def Request.isDelete : Request → Bool
  | .delete _ _ => true
  | _ => false

def Request.url : Request → String
  | .get u _ => u
  | .post u _ => u
  | .put u _ => u
  | .delete u _ => u

/-- Python `str.lstrip` for a single strip character. -/
def lstripChar (s : String) (c : Char) : String :=
  ⟨s.data.dropWhile (fun x => x = c)⟩

/-- Digit-run check used by Python `int(str)`: a non-empty run of decimal digits.
(PEP 515 underscore grouping between digits is accepted by CPython but is not
modelled here; no repository input involves underscores.) -/
def pyDigits (l : List Char) : Bool :=
  !l.isEmpty && l.all Char.isDigit

/-- Numeric value of a run of decimal digits. -/
def pyDigitsVal (l : List Char) : Nat :=
  l.foldl (fun acc c => acc * 10 + (c.toNat - 48)) 0

/-- Python `str.strip()` of surrounding whitespace, as performed by `int(str)`. -/
def pyStripWs (l : List Char) : List Char :=
  ((l.dropWhile Char.isWhitespace).reverse.dropWhile Char.isWhitespace).reverse

/-- Python `int(s)` on a string: optional surrounding whitespace, an optional
sign, then a non-empty digit run; `none` models the `ValueError` branch. -/
def pyIntOfString (s : String) : Option Int :=
  match pyStripWs s.data with
  | [] => none
  | c :: rest =>
    if c = '+' then
      if pyDigits rest then some (Int.ofNat (pyDigitsVal rest)) else none
    else if c = '-' then
      if pyDigits rest then some (-(Int.ofNat (pyDigitsVal rest))) else none
    else
      if pyDigits (c :: rest) then some (Int.ofNat (pyDigitsVal (c :: rest))) else none

/-- The state of a `GitHubRepository` instance: its address of record `_url`,
the `_repository` attribute (`none` after a numeric identifier was recognised),
and the lazily populated cached data snapshot (`none` when not yet fetched). -/
structure GitHubRepository where
  url : String
  repository : Option String
  data : Option Json

/-- Source `GitHubRepository.__init__`: tries `int(repository)`; on success the
repository name is discarded and the flat lookup URL is used, otherwise the
nested `/repos/` URL is built from the full name. -/
def GitHubRepository.init (repository : String ⊕ Int) : GitHubRepository :=
  match repository with
  | .inr n => { url := "/repositories/" ++ toString n, repository := none, data := none }
  | .inl s =>
    match pyIntOfString s with
    | some n => { url := "/repositories/" ++ toString n, repository := none, data := none }
    | none => { url := "/repos/" ++ s, repository := some s, data := none }

/-- Access to the lazily loaded `data` property: returns the cached snapshot when
present, otherwise the freshly fetched body `fetched`, together with the updated
object state and a flag recording whether a network fetch was needed. -/
def GitHubRepository.dataOf (st : GitHubRepository) (fetched : Json) :
    Json × GitHubRepository × Bool :=
  match st.data with
  | some d => (d, st, false)
  | none => (fetched, { st with data := some fetched }, true)

/-- Source `GitHubRepository.identifier`: reads `self.data` and projects the `id` field. -/
def GitHubRepository.identifier (st : GitHubRepository) (fetched : Json) :
    Int × GitHubRepository × Bool :=
  let r := st.dataOf fetched
  (r.1.getInt "id", r.2.1, r.2.2)

/-- Source `GitHubRepository.full_name`: `self._repository or self.data['full_name']`
(Python `or`: the data snapshot is consulted when `_repository` is `None` or the
empty string). -/
def GitHubRepository.full_name (st : GitHubRepository) (fetched : Json) :
    String × GitHubRepository × Bool :=
  match st.repository with
  | some s =>
    if s = "" then
      let r := st.dataOf fetched
      (r.1.getStr "full_name", r.2.1, r.2.2)
    else
      (s, st, false)
  | none =>
    let r := st.dataOf fetched
    (r.1.getStr "full_name", r.2.1, r.2.2)

/-- The label captions extracted from a `/labels` listing
(`{label['name'] for label in ...}`; membership is what the callers use). -/
def labelNames (items : List Json) : List String :=
  items.map (fun l => l.getStr "name")

/-- Source `GitHubRepository.get_labels`, applied to the outcome of the `/labels` GET. -/
def GitHubRepository.get_labels (resp : Except HttpError (List Json)) :
    Except Error (List String) :=
  match resp with
  | .error e => .error (.http e)
  | .ok items => .ok (labelNames items)

/-- Source `GitHubRepository.create_label`: lists the labels, raises
`ElementAlreadyExistsError` when the name is present, otherwise POSTs the new
label and assigns the POST response to `self.data`.  The first component is the
trace of HTTP requests issued, in order. -/
def GitHubRepository.create_label (st : GitHubRepository)
    (labelsResp : Except HttpError (List Json)) (name color : String)
    (postResp : Json) : List Request × Except Error GitHubRepository :=
  let getReq := Request.get (st.url ++ "/labels") (Json.obj [])
  match labelsResp with
  | .error e => ([getReq], .error (.http e))
  | .ok items =>
    if name ∈ labelNames items then
      ([getReq], .error (.alreadyExists (name ++ " already exists.")))
    else
      ([getReq,
        Request.post (st.url ++ "/labels")
          (Json.obj [("name", Json.str name), ("color", Json.str (lstripChar color '#'))])],
       .ok { st with data := some postResp })

/-- Source `GitHubRepository.delete_label`: lists the labels, raises
`ElementDoesntExistError` when the name is absent, otherwise issues the DELETE.
`self.data` is not assigned. -/
def GitHubRepository.delete_label (st : GitHubRepository)
    (labelsResp : Except HttpError (List Json)) (name : String) :
    List Request × Except Error GitHubRepository :=
  let getReq := Request.get (st.url ++ "/labels") (Json.obj [])
  match labelsResp with
  | .error e => ([getReq], .error (.http e))
  | .ok items =>
    if name ∉ labelNames items then
      ([getReq], .error (.doesntExist (name ++ " doesnt exist.")))
    else
      ([getReq, Request.delete (st.url ++ "/labels/" ++ name) (Json.obj [])], .ok st)

/-- A webhook record as returned by the `/hooks` listing: its `id` and the
`url` entry of its `config` object (`hook['config'].get('url', None)`). -/
structure Hook where
  id : Int
  configUrl : Option String

/-- The hook URLs of a listing, with config-less entries discarded
(`results.discard(None)`). -/
def hookUrls (hs : List Hook) : List String :=
  hs.filterMap (fun h => h.configUrl)

/-- The `GitHubRepository.hooks` property, applied to the `/hooks` GET outcome. -/
def GitHubRepository.hooks (resp : Except HttpError (List Hook)) :
    Except Error (List String) :=
  match resp with
  | .error e => .error (.http e)
  | .ok hs => .ok (hookUrls hs)

/-- The abstract webhook event kinds of `IGitt.Interfaces.Repository`. -/
inductive WebhookEvents where
  | push
  | issue
  | merge_request
  | issue_comment
  | commit_comment
  | merge_request_comment

/-- The GitHub translation table for webhook events. -/
def GH_WEBHOOK_TRANSLATION : WebhookEvents → String
  | .push => "push"
  | .issue => "issues"
  | .merge_request => "pull_request"
  | .commit_comment => "commit_comment"
  | .merge_request_comment => "issue_comment"
  | .issue_comment => "issue_comment"

/-- Source `GitHubRepository.register_hook`: returns silently when the URL is already
hooked, otherwise POSTs the hook configuration and assigns the POST response to
`self.data`.  An empty-string secret is falsy in Python and hence not added. -/
def GitHubRepository.register_hook (st : GitHubRepository)
    (hooksResp : Except HttpError (List Hook)) (url : String)
    (secret : Option String) (events : Option (List WebhookEvents))
    (postResp : Json) : List Request × Except Error GitHubRepository :=
  let getReq := Request.get (st.url ++ "/hooks") (Json.obj [])
  match hooksResp with
  | .error e => ([getReq], .error (.http e))
  | .ok hs =>
    if url ∈ hookUrls hs then
      ([getReq], .ok st)
    else
      let config := Json.obj
        ([("url", Json.str url), ("content_type", Json.str "json")] ++
         (match secret with
          | some sec => if sec = "" then [] else [("secret", Json.str sec)]
          | none => []))
      let reg_events := (match events with
        | some evs => evs.map GH_WEBHOOK_TRANSLATION
        | none => [])
      let body := Json.obj
        [("name", Json.str "web"), ("active", Json.bool true), ("config", config),
         ("events", Json.arr (if reg_events.length ≠ 0
            then reg_events.map Json.str else [Json.str "*"]))]
      ([getReq, Request.post (st.url ++ "/hooks") body],
       .ok { st with data := some postResp })

/-- Source `GitHubRepository.delete_hook`: lists the hooks and deletes every hook whose
configured URL equals the given one; never raises for an unknown URL and does
not assign `self.data`. -/
def GitHubRepository.delete_hook (st : GitHubRepository)
    (hooksResp : Except HttpError (List Hook)) (url : String) :
    List Request × Except Error GitHubRepository :=
  let getReq := Request.get (st.url ++ "/hooks") (Json.obj [])
  match hooksResp with
  | .error e => ([getReq], .error (.http e))
  | .ok hs =>
    (getReq :: (hs.filter (fun h => h.configUrl = some url)).map
       (fun h => Request.delete (st.url ++ "/hooks/" ++ toString h.id) (Json.obj [])),
     .ok st)

/-- Provider-side semantics of one request against the hook collection: a POST
to the hooks endpoint creates one hook record whose configured URL is the `url`
entry of the posted `config` object; all other requests leave it unchanged. -/
def applyHookRequest (newId : Int) (hs : List Hook) : Request → List Hook
  | .post _ body =>
    hs ++ [{ id := newId,
             configUrl := match (body.lookup "config").bind (fun c => c.lookup "url") with
               | some (.str u) => some u
               | _ => none }]
  | _ => hs

/-- Provider-side semantics of a request trace against the hook collection. -/
def applyHookRequests (hs : List Hook) (newId : Int) (reqs : List Request) : List Hook :=
  reqs.foldl (applyHookRequest newId) hs

/-- Number of hook records configured for the given URL. -/
def countHooksTo (hs : List Hook) (url : String) : Nat :=
  (hs.filter (fun h => h.configUrl = some url)).length

/-- Scenario: run `register_hook url` twice in a row, applying each run's
request trace to the provider-side hook collection in between. -/
def registerTwice (st : GitHubRepository) (hs : List Hook) (url : String)
    (secret : Option String) (events : Option (List WebhookEvents)) (postResp : Json)
    (i1 i2 : Int) : List Hook :=
  let hs1 := applyHookRequests hs i1 (st.register_hook (.ok hs) url secret events postResp).1
  applyHookRequests hs1 i2 (st.register_hook (.ok hs1) url secret events postResp).1

/-- A member of the set built by the `commits` property:
`GitHubCommit.from_data(commit, token, full_name, commit['sha'])`. -/
structure GitHubCommitRef where
  repository : String
  sha : String
  data : Json

/-- The `GitHubRepository.commits` property: on a transport failure with HTTP
status 409 (empty repository) it returns the empty set, every other failure is
re-raised unchanged. -/
def GitHubRepository.commits (st : GitHubRepository) (fetched : Json)
    (resp : Except HttpError (List Json)) : Except Error (List GitHubCommitRef) :=
  match resp with
  | .ok items => .ok (items.map (fun c =>
      { repository := (st.full_name fetched).1, sha := c.getStr "sha", data := c }))
  | .error e => if e.status = 409 then .ok [] else .error (.http e)

/-- The `GitHubRepository.merge_requests` property, applied to the `/pulls` GET
outcome: one `GitHubMergeRequest(token, full_name, number)` per item. -/
def GitHubRepository.merge_requests (st : GitHubRepository) (fetched : Json)
    (resp : Except HttpError (List Json)) : Except Error (List (String × Int)) :=
  match resp with
  | .error e => .error (.http e)
  | .ok items => .ok (items.map (fun r => ((st.full_name fetched).1, r.getInt "number")))

/-- The GitHub issue state translation table. -/
def GH_ISSUE_STATE_TRANSLATION : String → Option String
  | "opened" => some "open"
  | "closed" => some "closed"
  | "all" => some "all"
  | _ => none

/-- Source `GitHubRepository.filter_issues`: translates the state (KeyError on an
unknown one, modelled as a runtime error), then keeps the listed items that are
not pull requests. -/
def GitHubRepository.filter_issues (st : GitHubRepository) (fetched : Json)
    (state : String) (resp : Except HttpError (List Json)) :
    Except Error (List (String × Int)) :=
  match GH_ISSUE_STATE_TRANSLATION state with
  | none => .error (.runtime "KeyError")
  | some _ =>
    match resp with
    | .error e => .error (.http e)
    | .ok items => .ok ((items.filter (fun r => (r.lookup "pull_request").isNone)).map
        (fun r => ((st.full_name fetched).1, r.getInt "number")))

/-- A `datetime.datetime` value as used by the search filters. -/
structure PyDatetime where
  year : Nat
  month : Nat
  day : Nat
  hour : Nat
  minute : Nat
  second : Nat

def pad2 (n : Nat) : String :=
  if n < 10 then "0" ++ toString n else toString n

def pad4 (n : Nat) : String :=
  if n < 10 then "000" ++ toString n
  else if n < 100 then "00" ++ toString n
  else if n < 1000 then "0" ++ toString n
  else toString n

/-- Source `strftime('%Y-%m-%dT%H:%M:%SZ')`. -/
def strftimeISO (d : PyDatetime) : String :=
  pad4 d.year ++ "-" ++ pad2 d.month ++ "-" ++ pad2 d.day ++ "T" ++
  pad2 d.hour ++ ":" ++ pad2 d.minute ++ ":" ++ pad2 d.second ++ "Z"

/-- Source `GitHubRepository._search`: builds the query string (concatenating
`self._repository`, a `TypeError` when that attribute is `None`), raises the
configuration-conflict `RuntimeError` when both ends of a date window are
supplied, and only then issues the search GET.  The absent-parameter default
`''` is falsy, so the optional datetimes are modelled with `Option`. -/
def GitHubRepository.search (st : GitHubRepository) (issue_type : String)
    (created_after created_before updated_after updated_before : Option PyDatetime)
    (resp : List Json) : List Request × Except Error (List Json) :=
  match st.repository with
  | none => ([], .error .typeErr)
  | some repo =>
    let query := " type:" ++ issue_type ++ " state:open repo:" ++ repo
    if (created_after.isSome && created_before.isSome) ||
       (updated_after.isSome && updated_before.isSome) then
      ([], .error (.runtime "Cannot process before and after date simultaneously"))
    else
      let query := query ++ (match created_after with
        | some d => " created:>=" ++ strftimeISO d
        | none => match created_before with
          | some d => " created:<" ++ strftimeISO d
          | none => "")
      let query := query ++ (match updated_after with
        | some d => " updated:>=" ++ strftimeISO d
        | none => match updated_before with
          | some d => " updated:<" ++ strftimeISO d
          | none => "")
      ([Request.get "/search/issues"
          (Json.obj [("q", Json.str query), ("per_page", Json.str "100")])],
       .ok resp)

/-- Source `GitHubRepository.search_issues`: iterates `_search('issue', ...)`, seeding
each issue with its search payload (`(number, data)` pairs). -/
def GitHubRepository.search_issues (st : GitHubRepository)
    (created_after created_before updated_after updated_before : Option PyDatetime)
    (resp : List Json) : List Request × Except Error (List (Int × Json)) :=
  let r := st.search "issue" created_after created_before updated_after updated_before resp
  (r.1, r.2.map (fun items => items.map (fun j => (j.getInt "number", j))))

/-- Source `GitHubRepository.search_mrs`: iterates `_search('pr', ...)`, seeding each
pull request with its search payload. -/
def GitHubRepository.search_mrs (st : GitHubRepository)
    (created_after created_before updated_after updated_before : Option PyDatetime)
    (resp : List Json) : List Request × Except Error (List (Int × Json)) :=
  let r := st.search "pr" created_after created_before updated_after updated_before resp
  (r.1, r.2.map (fun items => items.map (fun j => (j.getInt "number", j))))

/-- The abstract commit status states of `IGitt.Interfaces.CommitStatus`. -/
inductive Status where
  | running
  | canceled
  | failed
  | pending
  | success

/-- A `CommitStatus(status, description, context, url)` value. -/
structure CommitStatus where
  status : Status
  description : String
  context : String
  url : String

/-- A raw status item of the GitLab statuses listing. -/
structure WireStatus where
  status : String
  description : String
  name : String
  target_url : String

/-- Source `INV_GL_STATE_TRANSLATION`: the inverse GitLab state table; `none` models
the `KeyError` on an unmapped provider string. -/
def INV_GL_STATE_TRANSLATION : String → Option Status
  | "running" => some .running
  | "canceled" => some .canceled
  | "failed" => some .failed
  | "pending" => some .pending
  | "success" => some .success
  | _ => none

/-- The `CommitStatus` built from one raw status item. -/
def translateStatus (s : WireStatus) : Option CommitStatus :=
  (INV_GL_STATE_TRANSLATION s.status).map
    (fun st => { status := st, description := s.description, context := s.name,
                 url := s.target_url })

/-- The loop body of `GitLabCommit.get_statuses`: iterates the provider items in
order, adding a `CommitStatus` for the first item of each `name` and recording
the name in `contexts`; later items with a seen name are dropped. -/
def get_statuses_go : List WireStatus → List String → List CommitStatus →
    Option (List CommitStatus)
  | [], _, result => some result
  | s :: rest, contexts, result =>
    if s.name ∈ contexts then
      get_statuses_go rest contexts result
    else
      match INV_GL_STATE_TRANSLATION s.status with
      | none => none
      | some st =>
        get_statuses_go rest (contexts ++ [s.name])
          (result ++ [{ status := st, description := s.description, context := s.name,
                        url := s.target_url }])

/-- Source `GitLabCommit.get_statuses`, applied to the provider's status sequence. -/
def get_statuses (statuses : List WireStatus) : Option (List CommitStatus) :=
  get_statuses_go statuses [] []

/-- Accumulator-free companion of `get_statuses_go`, used for the proofs. -/
def get_statuses_core : List WireStatus → List String → Option (List CommitStatus)
  | [], _ => some []
  | s :: rest, seen =>
    if s.name ∈ seen then
      get_statuses_core rest seen
    else
      match INV_GL_STATE_TRANSLATION s.status with
      | none => none
      | some st =>
        (get_statuses_core rest (seen ++ [s.name])).map
          (fun l => { status := st, description := s.description, context := s.name,
                      url := s.target_url } :: l)

/-- One entry of the commit diff listing; the unified diff text of a file is
abstracted to the list of new-file line numbers its hunks cover. -/
structure Patch where
  new_path : String
  old_path : String
  diff : List Nat

/-- Source `GitLabCommit.get_patch_for_file`: the diff of the first entry naming the
file as its new or old path, `ElementDoesntExistError` otherwise. -/
def get_patch_for_file (diff : List Patch) (filename : String) :
    Except Error (List Nat) :=
  match diff.find? (fun p => filename = p.new_path || filename = p.old_path) with
  | some p => .ok p.diff
  | none => .error (.doesntExist "The file does not exist.")

/-- Modelled from the spec: `get_diff_index` lives in `GitHubCommit.py`, which is
not among the available sources.  Per the spec it yields the position of the
given new-file line within the unified diff when the line is part of the diff
and a falsy value otherwise; positions are 1-based here, so a present line never
yields a falsy index. -/
def get_diff_index (patch : List Nat) (line : Nat) : Option Nat :=
  if line ∈ patch then some (patch.indexOf line + 1) else none

/-- Python truthiness of an optional string. -/
def optTruthy : Option String → Bool
  | some s => s ≠ ""
  | none => false

/-- Source `urllib.parse.quote_plus`, modelled for the characters that occur in
repository full names: the path separator is percent-encoded and a space
becomes a plus; other characters used in names pass through. -/
def quote_plus (s : String) : String :=
  ⟨s.data.foldr
    (fun c acc =>
      if c = '/' then '%' :: '2' :: 'F' :: acc
      else if c = ' ' then '+' :: acc
      else c :: acc) []⟩

/-- The state of a `GitLabCommit` instance. -/
structure GitLabCommit where
  repository : String
  sha : Option String
  branch : Option String
  url : String
  data : Option Json

/-- Source `GitLabCommit.__init__`: asserts that a SHA or a branch is given (`none`
models the assertion failure) and builds the commit URL from whichever is
truthy. -/
def GitLabCommit.init (repository : String) (sha branch : Option String) :
    Option GitLabCommit :=
  if optTruthy sha || optTruthy branch then
    some { repository := repository, sha := sha, branch := branch,
           url := "/projects/" ++ quote_plus repository ++ "/repository/commits/" ++
             (if optTruthy sha then sha.getD "" else branch.getD ""),
           data := none }
  else
    none

/-- The `GitLabCommit.sha` property: `self._sha if self._sha else
self.data['id']`, with the lazy data access modelled as for the repository. -/
def GitLabCommit.shaOf (cm : GitLabCommit) (fetched : Json) :
    String × GitLabCommit × Bool :=
  if optTruthy cm.sha then
    (cm.sha.getD "", cm, false)
  else
    match cm.data with
    | some d => (d.getStr "id", cm, false)
    | none => (fetched.getStr "id", { cm with data := some fetched }, true)

/-- Source `GitLabCommit.comment`: tries to attach the comment to the given file and
line; when the file is absent from the diff (`ElementDoesntExistError` caught)
or the line's diff index is falsy, it falls back to a general comment whose note
is prefixed with the commit, file and line context.  With an `mr_number` the
note is posted to that merge request's notes endpoint instead. -/
def GitLabCommit.comment (cm : GitLabCommit) (fetched : Json) (diff : List Patch)
    (message : String) (file : Option String) (line : Option Nat)
    (mr_number : Option Nat) : Request :=
  let inline : Option (Nat × String) :=
    match file, line with
    | some f, some l =>
      match get_patch_for_file diff f with
      | .error _ => none
      | .ok patch =>
        match get_diff_index patch l with
        | some idx => if idx ≠ 0 then some (idx, f) else none
        | none => none
    | _, _ => none
  let fields : List (String × Json) :=
    match inline with
    | some (idx, f) =>
      [("note", Json.str message), ("line_type", Json.str "new"),
       ("line", Json.num (Int.ofNat idx)), ("path", Json.str f)]
    | none =>
      let file_str := match file with
        | some f => ", file " ++ f
        | none => ""
      let line_str := match line with
        | some l => ", line " ++ toString l
        | none => ""
      [("note", Json.str ("Comment on " ++ (cm.shaOf fetched).1 ++ file_str ++
         line_str ++ ".\n\n" ++ message)),
       ("line_type", Json.str "new")]
  match mr_number with
  | none => Request.post (cm.url ++ "/comments") (Json.obj fields)
  | some mr =>
    Request.post
      ("/projects/" ++ quote_plus cm.repository ++ "/merge_requests/" ++
        toString mr ++ "/notes")
      (Json.obj (fields ++ [("body", (Json.obj fields).getStr "note" |> Json.str)]))

/-- The base64 alphabet. -/
def base64Chars : List Char :=
  "ABCDEFGHIJKLMNOPQRSTUVWXYZabcdefghijklmnopqrstuvwxyz0123456789+/".data

def b64char (n : Nat) : Char :=
  base64Chars.getD n 'A'

/-- Base64 encoding of a byte list, three bytes at a time with padding. -/
def b64chunks : List Nat → List Char
  | [] => []
  | [b1] =>
    let v := b1 * 65536
    [b64char (v / 262144), b64char (v / 4096 % 64), '=', '=']
  | [b1, b2] =>
    let v := b1 * 65536 + b2 * 256
    [b64char (v / 262144), b64char (v / 4096 % 64), b64char (v / 64 % 64), '=']
  | b1 :: b2 :: b3 :: rest =>
    let v := b1 * 65536 + b2 * 256 + b3
    b64char (v / 262144) :: b64char (v / 4096 % 64) :: b64char (v / 64 % 64) ::
      b64char (v % 64) :: b64chunks rest

/-- Source `b64encode(content.encode()).decode('utf-8')`. -/
def b64encode (s : String) : String :=
  ⟨b64chunks (s.toUTF8.toList.map (fun b => b.toNat))⟩

/-- The state of a `GitHubContent` instance. -/
structure GitHubContent where
  url : String
  repository : String
  data : Option Json

/-- Source `GitHubContent.__init__`. -/
def GitHubContent.init (repository path : String) : GitHubContent :=
  { url := "/repos/" ++ repository ++ "/contents/" ++ path,
    repository := repository, data := none }

/-- Source `GitHubContent.get_content`: issues the GET and assigns the decoded body to
`self.data`; the method body ends without a return statement, so its value is
`None` (here `Unit`). -/
def GitHubContent.get_content (st : GitHubContent) (ref : String) (resp : Json) :
    List Request × GitHubContent × Unit :=
  ([Request.get st.url (Json.obj [("path", Json.str st.url), ("ref", Json.str ref)])],
   { st with data := some resp }, ())

/-- Access to the lazily loaded `data` property of a content object. -/
def GitHubContent.dataOf (st : GitHubContent) (fetched : Json) :
    Json × GitHubContent × Bool :=
  match st.data with
  | some d => (d, st, false)
  | none => (fetched, { st with data := some fetched }, true)

/-- Source `GitHubContent.delete`: defaults the branch to master and issues the DELETE
with the `sha` read from `self.data` (fetched lazily when not cached; the lazy
GET is part of the trace in that case). -/
def GitHubContent.delete (st : GitHubContent) (fetched : Json) (message : String)
    (branch : Option String) : List Request × GitHubContent :=
  let br := match branch with
    | none => "master"
    | some b => b
  let r := st.dataOf fetched
  ((if r.2.2 then [Request.get st.url (Json.obj [])] else []) ++
   [Request.delete st.url
     (Json.obj [("path", Json.str st.url), ("message", Json.str message),
       ("sha", Json.str (r.1.getStr "sha")), ("branch", Json.str br)])],
   r.2.1)

/-- Source `GitHubContent.update`: base64-encodes the content, defaults the branch to
master and issues the PUT with the `sha` read from `self.data` (fetched lazily
when not cached). -/
def GitHubContent.update (st : GitHubContent) (fetched : Json)
    (message content : String) (branch : Option String) :
    List Request × GitHubContent :=
  let contentEnc := b64encode content
  let br := match branch with
    | none => "master"
    | some b => b
  let r := st.dataOf fetched
  ((if r.2.2 then [Request.get st.url (Json.obj [])] else []) ++
   [Request.put st.url
     (Json.obj [("path", Json.str st.url), ("message", Json.str message),
       ("sha", Json.str (r.1.getStr "sha")), ("branch", Json.str br),
       ("content", Json.str contentEnc)])],
   r.2.1)

theorem dropWhile_eq_self_of (p : Char → Bool) (l : List Char)
    (h : ∀ c ∈ l, p c = false) : l.dropWhile p = l := by
  cases l with
  | nil => rfl
  | cons a t => simp [List.dropWhile_cons, h a (by simp)]

theorem mem_dropWhile_of (p : Char → Bool) (l : List Char) (c : Char)
    (hm : c ∈ l) (hc : p c = false) : c ∈ l.dropWhile p := by
  induction l with
  | nil => simp at hm
  | cons a t ih =>
    rw [List.dropWhile_cons]
    by_cases ha : p a = true
    · rw [if_pos ha]
      rcases List.mem_cons.mp hm with h1 | h2
      · subst h1; rw [hc] at ha; cases ha
      · exact ih h2
    · rw [if_neg ha]; exact hm

theorem mem_pyStripWs (l : List Char) (c : Char) (hm : c ∈ l)
    (hc : c.isWhitespace = false) : c ∈ pyStripWs l := by
  unfold pyStripWs
  refine List.mem_reverse.mpr (mem_dropWhile_of _ _ _ ?_ hc)
  exact List.mem_reverse.mpr (mem_dropWhile_of _ _ _ hm hc)

theorem digit_not_ws {c : Char} (h : c.isDigit = true) : c.isWhitespace = false := by
  cases hw : c.isWhitespace with
  | false => rfl
  | true =>
    exfalso
    have hw2 := hw
    simp only [Char.isWhitespace, Bool.or_eq_true, decide_eq_true_eq] at hw2
    rcases hw2 with ((h1 | h1) | h1) | h1 <;> (subst h1; exact absurd h (by decide))

theorem pyStripWs_of_digits (l : List Char) (h : ∀ c ∈ l, c.isDigit = true) :
    pyStripWs l = l := by
  unfold pyStripWs
  rw [dropWhile_eq_self_of _ _ (fun c hc => digit_not_ws (h c hc))]
  rw [dropWhile_eq_self_of _ _ (fun c hc => digit_not_ws (h c (List.mem_reverse.mp hc)))]
  exact List.reverse_reverse l

theorem pyDigits_eq_false (l : List Char) (c : Char) (hm : c ∈ l)
    (hc : c.isDigit = false) : pyDigits l = false := by
  have hall : l.all Char.isDigit = false := by
    cases hall : l.all Char.isDigit with
    | false => rfl
    | true => exact absurd (List.all_eq_true.mp hall c hm) (by simp [hc])
  simp [pyDigits, hall]

theorem pyIntOfString_none_of_slash (s : String) (h : '/' ∈ s.data) :
    pyIntOfString s = none := by
  have hm : '/' ∈ pyStripWs s.data := mem_pyStripWs _ _ h (by decide)
  unfold pyIntOfString
  cases hl : pyStripWs s.data with
  | nil => rfl
  | cons c rest =>
    rw [hl] at hm
    dsimp only
    by_cases hp : c = '+'
    · have h2 : '/' ∈ rest := by
        rcases List.mem_cons.mp hm with h1 | h1
        · subst hp; cases h1
        · exact h1
      rw [if_pos hp, pyDigits_eq_false rest '/' h2 (by decide)]; rfl
    · rw [if_neg hp]
      by_cases hn : c = '-'
      · have h2 : '/' ∈ rest := by
          rcases List.mem_cons.mp hm with h1 | h1
          · subst hn; cases h1
          · exact h1
        rw [if_pos hn, pyDigits_eq_false rest '/' h2 (by decide)]; rfl
      · rw [if_neg hn, pyDigits_eq_false (c :: rest) '/' hm (by decide)]; rfl

theorem pyIntOfString_isSome_of_digits (s : String) (h0 : s.data ≠ [])
    (h : ∀ c ∈ s.data, c.isDigit = true) : ∃ n : Int, pyIntOfString s = some n := by
  have hstrip : pyStripWs s.data = s.data := pyStripWs_of_digits _ h
  unfold pyIntOfString
  rw [hstrip]
  cases hl : s.data with
  | nil => exact absurd hl h0
  | cons c rest =>
    dsimp only
    have hcd : c.isDigit = true := h c (by rw [hl]; exact List.mem_cons_self c rest)
    have hp : c ≠ '+' := by intro e; subst e; exact absurd hcd (by decide)
    have hn : c ≠ '-' := by intro e; subst e; exact absurd hcd (by decide)
    rw [if_neg hp, if_neg hn]
    have hd : pyDigits (c :: rest) = true := by
      simp only [pyDigits, List.isEmpty_cons, Bool.not_false, Bool.true_and]
      exact List.all_eq_true.mpr (fun x hx => h x (by rw [hl]; exact hx))
    rw [if_pos hd]
    exact ⟨_, rfl⟩

/-- C1: `create_label` raises `ElementAlreadyExistsError` exactly when the name
is already among the labels returned by `get_labels`, and on that error its
request trace contains no state-changing request; dually `delete_label` raises
`ElementDoesntExistError` exactly when the name is absent, and its trace
contains a DELETE exactly when the name is present. -/
theorem claim1_label_lifecycle (st : GitHubRepository) (items : List Json)
    (name color : String) (postResp : Json) :
    GitHubRepository.get_labels (.ok items) = .ok (labelNames items) ∧
    ((st.create_label (.ok items) name color postResp).2 =
        .error (.alreadyExists (name ++ " already exists.")) ↔ name ∈ labelNames items) ∧
    (name ∈ labelNames items →
      ∀ r ∈ (st.create_label (.ok items) name color postResp).1, r.isWrite = false) ∧
    ((st.delete_label (.ok items) name).2 =
        .error (.doesntExist (name ++ " doesnt exist.")) ↔ name ∉ labelNames items) ∧
    ((∃ r ∈ (st.delete_label (.ok items) name).1, r.isDelete = true) ↔
        name ∈ labelNames items) := by
  refine ⟨rfl, ?_, ?_, ?_, ?_⟩
  · by_cases h : name ∈ labelNames items <;>
      simp [GitHubRepository.create_label, h]
  · intro h r hr
    simp [GitHubRepository.create_label, h] at hr
    subst hr; rfl
  · by_cases h : name ∈ labelNames items <;>
      simp [GitHubRepository.delete_label, h]
  · by_cases h : name ∈ labelNames items <;>
      simp [GitHubRepository.delete_label, h, Request.isDelete, Request.isWrite]

/-- C1 witness: on labels `a`, `b`, `c`, creating `c` raises the
already-exists error and deleting `d` raises the doesnt-exist error. -/
theorem claim1_label_lifecycle_witness :
    (({ url := "/repos/o/r", repository := some "o/r", data := none } :
        GitHubRepository).create_label
      (.ok [Json.obj [("name", Json.str "a")], Json.obj [("name", Json.str "b")],
            Json.obj [("name", Json.str "c")]]) "c" "#555555" Json.null).2 =
      .error (.alreadyExists ("c" ++ " already exists.")) ∧
    (({ url := "/repos/o/r", repository := some "o/r", data := none } :
        GitHubRepository).delete_label
      (.ok [Json.obj [("name", Json.str "a")], Json.obj [("name", Json.str "b")],
            Json.obj [("name", Json.str "c")]]) "d").2 =
      .error (.doesntExist ("d" ++ " doesnt exist.")) := by
  constructor
  · exact (claim1_label_lifecycle _ _ "c" "#555555" Json.null).2.1.mpr (by
      simp [labelNames, Json.getStr, Json.lookup, jfind])
  · exact (claim1_label_lifecycle
      { url := "/repos/o/r", repository := some "o/r", data := none }
      _ "d" "" Json.null).2.2.2.1.mpr (by
      simp [labelNames, Json.getStr, Json.lookup, jfind])

/-- C4: the `commits` property maps a 409 transport failure (empty repository)
to the empty collection, re-raises every other failure unchanged, and the
special-casing is isolated to the commit listing: every other modelled
operation of the class propagates any transport failure, 409 included. -/
theorem claim4_empty_repo_409 (st : GitHubRepository) (fetched : Json)
    (e : HttpError) (name color url : String) (postResp : Json) :
    (e.status = 409 → st.commits fetched (.error e) = .ok []) ∧
    (e.status ≠ 409 → st.commits fetched (.error e) = .error (.http e)) ∧
    GitHubRepository.get_labels (.error e) = .error (.http e) ∧
    GitHubRepository.hooks (.error e) = .error (.http e) ∧
    st.merge_requests fetched (.error e) = .error (.http e) ∧
    st.filter_issues fetched "opened" (.error e) = .error (.http e) ∧
    (st.create_label (.error e) name color postResp).2 = .error (.http e) ∧
    (st.delete_label (.error e) name).2 = .error (.http e) ∧
    (st.register_hook (.error e) url none none postResp).2 = .error (.http e) ∧
    (st.delete_hook (.error e) url).2 = .error (.http e) := by
  refine ⟨?_, ?_, rfl, rfl, rfl, rfl, rfl, rfl, rfl, rfl⟩
  · intro h; simp [GitHubRepository.commits, h]
  · intro h; simp [GitHubRepository.commits, h]

/-- C4 witness: a 409 on the commit listing yields the empty set, a 404 on it
is re-raised. -/
theorem claim4_empty_repo_409_witness :
    (({ url := "/repos/o/r", repository := some "o/r", data := none } :
        GitHubRepository).commits Json.null (.error ⟨Json.null, 409⟩) = .ok []) ∧
    (({ url := "/repos/o/r", repository := some "o/r", data := none } :
        GitHubRepository).commits Json.null (.error ⟨Json.null, 404⟩) =
      .error (.http ⟨Json.null, 404⟩)) :=
  ⟨(claim4_empty_repo_409 _ Json.null ⟨Json.null, 409⟩ "" "" "" Json.null).1 rfl,
   (claim4_empty_repo_409 _ Json.null ⟨Json.null, 404⟩ "" "" "" Json.null).2.1
     (by decide)⟩

/-- C7: a numeric repository identifier yields the flat `/repositories/{id}`
URL with no stored name, so `full_name` consults the fetched data snapshot; an
`owner/name` string yields the nested `/repos/owner/name` URL and `full_name`
returns the given string without touching the data snapshot. -/
theorem claim7_dual_addressing (n : Int) (owner nm : String) (fetched : Json) :
    GitHubRepository.init (.inr n) =
      { url := "/repositories/" ++ toString n, repository := none, data := none } ∧
    ((GitHubRepository.init (.inr n)).full_name fetched).1 = fetched.getStr "full_name" ∧
    ((GitHubRepository.init (.inr n)).full_name fetched).2.2 = true ∧
    GitHubRepository.init (.inl (owner ++ "/" ++ nm)) =
      { url := "/repos/" ++ (owner ++ "/" ++ nm),
        repository := some (owner ++ "/" ++ nm), data := none } ∧
    ((GitHubRepository.init (.inl (owner ++ "/" ++ nm))).full_name fetched).1 =
      owner ++ "/" ++ nm ∧
    ((GitHubRepository.init (.inl (owner ++ "/" ++ nm))).full_name fetched).2.2 = false := by
  have hsl : '/' ∈ (owner ++ "/" ++ nm).data := by
    simp [String.data_append]
  have hparse : pyIntOfString (owner ++ "/" ++ nm) = none :=
    pyIntOfString_none_of_slash _ hsl
  have hne : (owner ++ "/" ++ nm) ≠ "" := by
    intro e
    rw [e] at hsl
    simp at hsl
  refine ⟨rfl, rfl, rfl, ?_, ?_, ?_⟩
  · simp [GitHubRepository.init, hparse]
  · simp [GitHubRepository.init, hparse, GitHubRepository.full_name, hne]
  · simp [GitHubRepository.init, hparse, GitHubRepository.full_name, hne]

/-- C8: a successful `create_label` or `register_hook` overwrites the cached
data snapshot with the POST response body, `delete_label` and `delete_hook`
leave the object state unchanged, and an `identifier` read on the overwritten
snapshot reflects the POST response without a fetch. -/
theorem claim8_cache_overwrite (st : GitHubRepository) (items : List Json)
    (hs : List Hook) (name color url : String) (secret : Option String)
    (events : Option (List WebhookEvents)) (postResp fetched : Json) :
    (name ∉ labelNames items →
      (st.create_label (.ok items) name color postResp).2 =
        .ok { st with data := some postResp }) ∧
    (url ∉ hookUrls hs →
      (st.register_hook (.ok hs) url secret events postResp).2 =
        .ok { st with data := some postResp }) ∧
    (name ∈ labelNames items → (st.delete_label (.ok items) name).2 = .ok st) ∧
    (st.delete_hook (.ok hs) url).2 = .ok st ∧
    (({ st with data := some postResp } : GitHubRepository).identifier fetched).1 =
      postResp.getInt "id" ∧
    (({ st with data := some postResp } : GitHubRepository).identifier fetched).2.2 =
      false := by
  refine ⟨?_, ?_, ?_, rfl, rfl, rfl⟩
  · intro h; simp [GitHubRepository.create_label, h]
  · intro h; simp [GitHubRepository.register_hook, h]
  · intro h; simp [GitHubRepository.delete_label, h]

/-- C8 witness: with no labels and no hooks, creating label `x` and registering
hook `u` succeed and seed the cache with the POST response; deleting label `x`
from a listing containing it leaves the state unchanged. -/
theorem claim8_cache_overwrite_witness :
    (({ url := "/repos/o/r", repository := some "o/r", data := none } :
        GitHubRepository).create_label (.ok []) "x" "#fff" (Json.num 7)).2 =
      .ok { url := "/repos/o/r", repository := some "o/r", data := some (Json.num 7) } ∧
    (({ url := "/repos/o/r", repository := some "o/r", data := none } :
        GitHubRepository).register_hook (.ok []) "u" none none (Json.num 8)).2 =
      .ok { url := "/repos/o/r", repository := some "o/r", data := some (Json.num 8) } ∧
    (({ url := "/repos/o/r", repository := some "o/r", data := none } :
        GitHubRepository).delete_label
      (.ok [Json.obj [("name", Json.str "x")]]) "x").2 =
      .ok { url := "/repos/o/r", repository := some "o/r", data := none } := by
  refine ⟨?_, ?_, ?_⟩
  · exact (claim8_cache_overwrite _ [] [] "x" "#fff" "u" none none (Json.num 7)
      Json.null).1 (by simp [labelNames])
  · exact (claim8_cache_overwrite _ [] [] "x" "#fff" "u" none none (Json.num 8)
      Json.null).2.1 (by simp [hookUrls])
  · exact (claim8_cache_overwrite _ [Json.obj [("name", Json.str "x")]] [] "x" "#fff"
      "u" none none (Json.num 7) Json.null).2.2.1
      (by simp [labelNames, Json.getStr, Json.lookup, jfind])

/-- C9: a string of digits is treated as a numeric identifier: `int()` parses
it, the stored repository name becomes `None`, the flat `/repositories/{n}` URL
is used, and `full_name` must consult the fetched data snapshot. -/
theorem claim9_digit_string_identifier (s : String) (fetched : Json)
    (h1 : s ≠ "") (h2 : ∀ c ∈ s.data, c.isDigit = true) :
    ∃ n : Int, pyIntOfString s = some n ∧
      GitHubRepository.init (.inl s) =
        { url := "/repositories/" ++ toString n, repository := none, data := none } ∧
      ((GitHubRepository.init (.inl s)).full_name fetched).1 =
        fetched.getStr "full_name" ∧
      ((GitHubRepository.init (.inl s)).full_name fetched).2.2 = true := by
  have h0 : s.data ≠ [] := by
    intro hd
    exact h1 (String.ext (hd.trans rfl))
  obtain ⟨n, hn⟩ := pyIntOfString_isSome_of_digits s h0 h2
  exact ⟨n, hn, by simp [GitHubRepository.init, hn],
    by simp [GitHubRepository.init, hn, GitHubRepository.full_name,
      GitHubRepository.dataOf],
    by simp [GitHubRepository.init, hn, GitHubRepository.full_name,
      GitHubRepository.dataOf]⟩

/-- C9 witness: the digit string `12345` is addressed via the flat URL and its
full name comes from the fetched snapshot. -/
theorem claim9_digit_string_identifier_witness :
    ("12345" : String) ≠ "" ∧
    (∃ n : Int, pyIntOfString "12345" = some n ∧
      GitHubRepository.init (.inl "12345") =
        { url := "/repositories/" ++ toString n, repository := none, data := none } ∧
      ((GitHubRepository.init (.inl "12345")).full_name Json.null).1 =
        Json.null.getStr "full_name" ∧
      ((GitHubRepository.init (.inl "12345")).full_name Json.null).2.2 = true) :=
  ⟨by decide, claim9_digit_string_identifier "12345" Json.null (by decide) (by decide)⟩

/-- C10: `get_content` returns no payload and stores the decoded response in
the data cache; `delete` and `update` read the `sha` from the currently cached
snapshot (fetching it lazily when absent), so after a `get_content` they
operate on that response. -/
theorem claim10_content_cache (st : GitHubContent) (ref : String)
    (resp fetched d : Json) (message content : String) (branch : Option String) :
    (st.get_content ref resp).2 = ({ st with data := some resp }, ()) ∧
    (st.data = some d →
      (st.delete fetched message branch).1 =
        [Request.delete st.url
          (Json.obj [("path", Json.str st.url), ("message", Json.str message),
            ("sha", Json.str (d.getStr "sha")),
            ("branch", Json.str (branch.getD "master"))])] ∧
      (st.delete fetched message branch).2 = st) ∧
    (st.data = none →
      (st.delete fetched message branch).1 =
        [Request.get st.url (Json.obj []),
         Request.delete st.url
          (Json.obj [("path", Json.str st.url), ("message", Json.str message),
            ("sha", Json.str (fetched.getStr "sha")),
            ("branch", Json.str (branch.getD "master"))])]) ∧
    (st.data = some d →
      (st.update fetched message content branch).1 =
        [Request.put st.url
          (Json.obj [("path", Json.str st.url), ("message", Json.str message),
            ("sha", Json.str (d.getStr "sha")),
            ("branch", Json.str (branch.getD "master")),
            ("content", Json.str (b64encode content))])]) ∧
    (st.data = none →
      (st.update fetched message content branch).1 =
        [Request.get st.url (Json.obj []),
         Request.put st.url
          (Json.obj [("path", Json.str st.url), ("message", Json.str message),
            ("sha", Json.str (fetched.getStr "sha")),
            ("branch", Json.str (branch.getD "master")),
            ("content", Json.str (b64encode content))])]) ∧
    (((st.get_content ref resp).2.1).delete fetched message branch).1 =
      [Request.delete st.url
        (Json.obj [("path", Json.str st.url), ("message", Json.str message),
          ("sha", Json.str (resp.getStr "sha")),
          ("branch", Json.str (branch.getD "master"))])] := by
  refine ⟨rfl, ?_, ?_, ?_, ?_, ?_⟩
  · intro h
    cases branch <;>
      simp [GitHubContent.delete, GitHubContent.dataOf, h, Option.getD]
  · intro h
    cases branch <;>
      simp [GitHubContent.delete, GitHubContent.dataOf, h, Option.getD]
  · intro h
    cases branch <;>
      simp [GitHubContent.update, GitHubContent.dataOf, h, Option.getD]
  · intro h
    cases branch <;>
      simp [GitHubContent.update, GitHubContent.dataOf, h, Option.getD]
  · cases branch <;>
      simp [GitHubContent.get_content, GitHubContent.delete, GitHubContent.dataOf,
        Option.getD]

/-- C10 witness: with a cached snapshot carrying sha `abc`, `delete` issues the
DELETE with that sha and no fetch. -/
theorem claim10_content_cache_witness :
    (({ url := "/repos/o/r/contents/p", repository := "o/r",
        data := some (Json.obj [("sha", Json.str "abc")]) } :
      GitHubContent).delete Json.null "msg" none).1 =
      [Request.delete "/repos/o/r/contents/p"
        (Json.obj [("path", Json.str "/repos/o/r/contents/p"),
          ("message", Json.str "msg"), ("sha", Json.str "abc"),
          ("branch", Json.str "master")])] := by
  have h := (claim10_content_cache
    { url := "/repos/o/r/contents/p", repository := "o/r",
      data := some (Json.obj [("sha", Json.str "abc")]) }
    "master" Json.null Json.null (Json.obj [("sha", Json.str "abc")])
    "msg" "" none).2.1 rfl
  exact h.1.trans (by simp [Json.getStr, Json.lookup, jfind])

/-- C5 counterexample: on a repository constructed from the numeric identifier
123 the `_repository` attribute is `None`, so a search supplying both
`created_after` and `created_before` fails while concatenating the query string
with a `TypeError`; it does not raise the configuration-conflict
`RuntimeError` (though it still issues no HTTP request). -/
theorem claim5_search_conflict_counterexample :
    (GitHubRepository.init (.inr 123)).repository = none ∧
    (GitHubRepository.init (.inr 123)).search_issues
        (some ⟨2017, 6, 1, 0, 0, 0⟩) (some ⟨2017, 6, 2, 0, 0, 0⟩) none none [] =
      ([], .error .typeErr) ∧
    ((GitHubRepository.init (.inr 123)).search_issues
        (some ⟨2017, 6, 1, 0, 0, 0⟩) (some ⟨2017, 6, 2, 0, 0, 0⟩) none none []).2 ≠
      .error (.runtime "Cannot process before and after date simultaneously") := by
  refine ⟨rfl, rfl, ?_⟩
  intro h
  simp [GitHubRepository.search_issues, GitHubRepository.search,
    GitHubRepository.init, Except.map] at h

/-- C5 (amended): on a repository whose `_repository` attribute is a string,
supplying both ends of the created or updated window makes `search_issues` and
`search_mrs` raise the configuration-conflict `RuntimeError` with no HTTP
request issued; a numeric-identifier repository (whose `_repository` is `None`)
also issues no request but fails with a `TypeError` instead. -/
theorem claim5_search_conflict (st : GitHubRepository) (r : String)
    (hrep : st.repository = some r)
    (ca cb ua ub : Option PyDatetime) (resp : List Json)
    (hconf : (ca.isSome = true ∧ cb.isSome = true) ∨
             (ua.isSome = true ∧ ub.isSome = true)) :
    st.search_issues ca cb ua ub resp =
      ([], .error (.runtime "Cannot process before and after date simultaneously")) ∧
    st.search_mrs ca cb ua ub resp =
      ([], .error (.runtime "Cannot process before and after date simultaneously")) ∧
    (∀ st2 : GitHubRepository, st2.repository = none →
      st2.search_issues ca cb ua ub resp = ([], .error .typeErr) ∧
      st2.search_mrs ca cb ua ub resp = ([], .error .typeErr)) := by
  have hcond : ((ca.isSome && cb.isSome) || (ua.isSome && ub.isSome)) = true := by
    rcases hconf with ⟨h1, h2⟩ | ⟨h1, h2⟩ <;> simp [h1, h2]
  refine ⟨?_, ?_, ?_⟩
  · simp [GitHubRepository.search_issues, GitHubRepository.search, hrep, hcond,
      Except.map]
  · simp [GitHubRepository.search_mrs, GitHubRepository.search, hrep, hcond,
      Except.map]
  · intro st2 h2
    constructor <;>
      simp [GitHubRepository.search_issues, GitHubRepository.search_mrs,
        GitHubRepository.search, h2, Except.map]

/-- C5 witness: a name-addressed repository with both created bounds raises the
conflict error with an empty request trace. -/
theorem claim5_search_conflict_witness :
    ({ url := "/repos/o/r", repository := some "o/r", data := none } :
      GitHubRepository).search_issues (some ⟨2017, 6, 1, 0, 0, 0⟩)
        (some ⟨2017, 6, 2, 0, 0, 0⟩) none none [] =
      ([], .error (.runtime "Cannot process before and after date simultaneously")) :=
  (claim5_search_conflict _ "o/r" rfl (some ⟨2017, 6, 1, 0, 0, 0⟩)
    (some ⟨2017, 6, 2, 0, 0, 0⟩) none none [] (Or.inl ⟨rfl, rfl⟩)).1

theorem mem_hookUrls_iff (hs : List Hook) (u : String) :
    u ∈ hookUrls hs ↔ ∃ h ∈ hs, h.configUrl = some u := by
  simp [hookUrls, List.mem_filterMap]

theorem countHooksTo_eq_zero_iff (hs : List Hook) (u : String) :
    countHooksTo hs u = 0 ↔ u ∉ hookUrls hs := by
  rw [countHooksTo, List.length_eq_zero, List.filter_eq_nil_iff, mem_hookUrls_iff]
  constructor
  · rintro h ⟨x, hx, he⟩
    exact h x hx (by simp [he])
  · intro h x hx
    simp only [decide_eq_true_eq]
    intro he
    exact h ⟨x, hx, he⟩

/-- C3: registering an already-hooked URL issues no registration request and
returns the object unchanged; registering an absent URL issues exactly one
POST, so running the registration twice against the provider leaves exactly one
hook record for the URL; `delete_hook` never fails, deletes exactly the hooks
whose configured URL equals the given one, and issues no DELETE when none
matches. -/
theorem claim3_webhook_idempotence (st : GitHubRepository) (hs : List Hook)
    (url : String) (secret : Option String) (events : Option (List WebhookEvents))
    (postResp : Json) (i1 i2 : Int) :
    (url ∈ hookUrls hs →
      st.register_hook (.ok hs) url secret events postResp =
        ([Request.get (st.url ++ "/hooks") (Json.obj [])], .ok st)) ∧
    (url ∉ hookUrls hs →
      ((st.register_hook (.ok hs) url secret events postResp).1.filter
        Request.isPost).length = 1) ∧
    (countHooksTo hs url = 0 →
      countHooksTo (registerTwice st hs url secret events postResp i1 i2) url = 1) ∧
    (st.delete_hook (.ok hs) url).2 = .ok st ∧
    ((st.delete_hook (.ok hs) url).1.filter Request.isDelete =
      (hs.filter (fun h => h.configUrl = some url)).map
        (fun h => Request.delete (st.url ++ "/hooks/" ++ toString h.id) (Json.obj []))) ∧
    (url ∉ hookUrls hs →
      (st.delete_hook (.ok hs) url).1.filter Request.isDelete = []) := by
  have hdel : (st.delete_hook (.ok hs) url).1.filter Request.isDelete =
      (hs.filter (fun h => h.configUrl = some url)).map
        (fun h => Request.delete (st.url ++ "/hooks/" ++ toString h.id) (Json.obj [])) := by
    simp only [GitHubRepository.delete_hook, List.filter_cons]
    rw [List.filter_map]
    simp [Request.isDelete, Function.comp, List.filter_true]
  refine ⟨?_, ?_, ?_, rfl, hdel, ?_⟩
  · intro h
    simp [GitHubRepository.register_hook, h]
  · intro h
    simp [GitHubRepository.register_hook, h, Request.isPost]
  · intro h0
    have hnm : url ∉ hookUrls hs := (countHooksTo_eq_zero_iff hs url).mp h0
    have htr : (st.register_hook (.ok hs) url secret events postResp).1 =
        [Request.get (st.url ++ "/hooks") (Json.obj []),
         Request.post (st.url ++ "/hooks")
           (Json.obj [("name", Json.str "web"), ("active", Json.bool true),
             ("config", Json.obj
               ([("url", Json.str url), ("content_type", Json.str "json")] ++
                (match secret with
                 | some sec => if sec = "" then [] else [("secret", Json.str sec)]
                 | none => []))),
             ("events", Json.arr
               (if (match events with
                    | some evs => evs.map GH_WEBHOOK_TRANSLATION
                    | none => []).length ≠ 0
                then (match events with
                     | some evs => evs.map GH_WEBHOOK_TRANSLATION
                     | none => []).map Json.str
                else [Json.str "*"]))])] := by
      simp [GitHubRepository.register_hook, hnm]
    have hs1eq : applyHookRequests hs i1
        (st.register_hook (.ok hs) url secret events postResp).1 =
        hs ++ [{ id := i1, configUrl := some url }] := by
      rw [htr]
      simp [applyHookRequests, applyHookRequest, Json.lookup, jfind]
    have hmem1 : url ∈ hookUrls (hs ++ [{ id := i1, configUrl := some url }]) := by
      rw [mem_hookUrls_iff]
      exact ⟨_, List.mem_append_right _ (List.mem_singleton.mpr rfl), rfl⟩
    have hfil : hs.filter (fun h => h.configUrl = some url) = [] := by
      simp only [countHooksTo] at h0
      exact List.length_eq_zero.mp h0
    rw [registerTwice, hs1eq]
    simp only [GitHubRepository.register_hook, hmem1, if_pos hmem1]
    simp [applyHookRequests, applyHookRequest, countHooksTo, List.filter_append, hfil]
  · intro h
    rw [hdel]
    have hfil : hs.filter (fun h => h.configUrl = some url) = [] := by
      have h0 := (countHooksTo_eq_zero_iff hs url).mpr h
      simp only [countHooksTo] at h0
      exact List.length_eq_zero.mp h0
    rw [hfil]
    rfl

/-- C3 witness: starting from no hooks, registering `u` twice leaves exactly
one hook record for `u`, and deleting `u` when no hook matches issues no DELETE
request. -/
theorem claim3_webhook_idempotence_witness :
    countHooksTo (registerTwice
      { url := "/repos/o/r", repository := some "o/r", data := none }
      [] "u" none none Json.null 1 2) "u" = 1 ∧
    (({ url := "/repos/o/r", repository := some "o/r", data := none } :
        GitHubRepository).delete_hook (.ok []) "u").1.filter Request.isDelete = [] :=
  ⟨(claim3_webhook_idempotence
      { url := "/repos/o/r", repository := some "o/r", data := none }
      [] "u" none none Json.null 1 2).2.2.1 rfl,
   (claim3_webhook_idempotence
      { url := "/repos/o/r", repository := some "o/r", data := none }
      [] "u" none none Json.null 1 2).2.2.2.2.2 (by simp [hookUrls])⟩

/-- C6: when the given file is absent from the diff or the given line is not
part of the patch of that file, the comment is posted as a general (non-inline)
comment on the commit whose note is the original message prefixed with the
commit SHA, file and line context; and whenever an `mr_number` is supplied the
comment goes to the notes endpoint of that merge request instead of the commit. -/
theorem claim6_comment_fallback (cm : GitLabCommit) (fetched : Json)
    (diff : List Patch) (message f : String) (l : Nat)
    (hmiss : get_patch_for_file diff f =
        .error (.doesntExist "The file does not exist.") ∨
      ∃ patch, get_patch_for_file diff f = .ok patch ∧ l ∉ patch) :
    cm.comment fetched diff message (some f) (some l) none =
      Request.post (cm.url ++ "/comments")
        (Json.obj [("note", Json.str ("Comment on " ++ (cm.shaOf fetched).1 ++
          (", file " ++ f) ++ (", line " ++ toString l) ++ ".\n\n" ++ message)),
          ("line_type", Json.str "new")]) ∧
    (∀ (file : Option String) (line : Option Nat) (m : Nat),
      (cm.comment fetched diff message file line (some m)).url =
        "/projects/" ++ quote_plus cm.repository ++ "/merge_requests/" ++
          toString m ++ "/notes") := by
  constructor
  · rcases hmiss with h | ⟨patch, hp, hl⟩
    · simp [GitLabCommit.comment, h]
    · simp [GitLabCommit.comment, hp, get_diff_index, hl]
  · intro file line m
    simp only [GitLabCommit.comment, Request.url]

/-- C6 witness: commenting on a file absent from the diff ends up as a general
commit comment with the context-prefixed note. -/
theorem claim6_comment_fallback_witness :
    GitLabCommit.comment
      { repository := "o/r", sha := some "3fc4b86", branch := none,
        url := "/projects/o%2Fr/repository/commits/3fc4b86", data := none }
      Json.null
      [{ new_path := "README.md", old_path := "README.md", diff := [1, 2, 3, 4] }]
      "Oh" (some "READMENOT.md") (some 4) none =
      Request.post ("/projects/o%2Fr/repository/commits/3fc4b86" ++ "/comments")
        (Json.obj [("note", Json.str ("Comment on " ++
          (GitLabCommit.shaOf
            { repository := "o/r", sha := some "3fc4b86", branch := none,
              url := "/projects/o%2Fr/repository/commits/3fc4b86", data := none }
            Json.null).1 ++
          (", file " ++ "READMENOT.md") ++ (", line " ++ toString 4) ++
          ".\n\n" ++ "Oh")),
          ("line_type", Json.str "new")]) :=
  (claim6_comment_fallback
    { repository := "o/r", sha := some "3fc4b86", branch := none,
      url := "/projects/o%2Fr/repository/commits/3fc4b86", data := none }
    Json.null
    [{ new_path := "README.md", old_path := "README.md", diff := [1, 2, 3, 4] }]
    "Oh" "READMENOT.md" 4 (Or.inl rfl)).1

theorem get_statuses_go_eq_core (l : List WireStatus) :
    ∀ (ctx : List String) (acc : List CommitStatus),
      get_statuses_go l ctx acc =
        (get_statuses_core l ctx).map (fun r => acc ++ r) := by
  induction l with
  | nil =>
    intro ctx acc
    simp [get_statuses_go, get_statuses_core]
  | cons s rest ih =>
    intro ctx acc
    by_cases hm : s.name ∈ ctx
    · simp [get_statuses_go, get_statuses_core, hm, ih]
    · cases hinv : INV_GL_STATE_TRANSLATION s.status with
      | none => simp [get_statuses_go, get_statuses_core, hm, hinv]
      | some st =>
        simp only [get_statuses_go, get_statuses_core, if_neg hm, hinv]
        rw [ih]
        cases get_statuses_core rest (ctx ++ [s.name]) <;> simp

theorem get_statuses_core_isSome (l : List WireStatus)
    (hv : ∀ s ∈ l, (INV_GL_STATE_TRANSLATION s.status).isSome = true) :
    ∀ seen, (get_statuses_core l seen).isSome = true := by
  induction l with
  | nil =>
    intro seen
    simp [get_statuses_core]
  | cons s rest ih =>
    intro seen
    have hs := hv s (List.mem_cons_self _ _)
    have hrest : ∀ t ∈ rest, (INV_GL_STATE_TRANSLATION t.status).isSome = true :=
      fun t ht => hv t (List.mem_cons_of_mem _ ht)
    by_cases hm : s.name ∈ seen
    · simp only [get_statuses_core, if_pos hm]
      exact ih hrest seen
    · cases hinv : INV_GL_STATE_TRANSLATION s.status with
      | none => rw [hinv] at hs; cases hs
      | some st =>
        simp only [get_statuses_core, if_neg hm, hinv]
        have h2 := ih hrest (seen ++ [s.name])
        cases hcr : get_statuses_core rest (seen ++ [s.name]) with
        | none => rw [hcr] at h2; cases h2
        | some res2 => simp

theorem get_statuses_core_mem (l : List WireStatus) :
    ∀ (seen : List String) (res : List CommitStatus),
      get_statuses_core l seen = some res →
      ∀ n : String, n ∈ res.map CommitStatus.context ↔
        (n ∈ l.map WireStatus.name ∧ n ∉ seen) := by
  induction l with
  | nil =>
    intro seen res h n
    simp [get_statuses_core] at h
    subst h
    simp
  | cons s rest ih =>
    intro seen res h n
    simp only [get_statuses_core] at h
    by_cases hm : s.name ∈ seen
    · rw [if_pos hm] at h
      rw [ih seen res h n]
      simp only [List.map_cons, List.mem_cons]
      constructor
      · rintro ⟨h1, h2⟩
        exact ⟨Or.inr h1, h2⟩
      · rintro ⟨h1 | h1, h2⟩
        · subst h1
          exact absurd hm h2
        · exact ⟨h1, h2⟩
    · rw [if_neg hm] at h
      cases hinv : INV_GL_STATE_TRANSLATION s.status with
      | none => rw [hinv] at h; cases h
      | some st =>
        rw [hinv] at h
        cases hcr : get_statuses_core rest (seen ++ [s.name]) with
        | none => rw [hcr] at h; cases h
        | some res2 =>
          rw [hcr] at h
          simp only [Option.map_some', Option.some.injEq] at h
          subst h
          have ihr := ih (seen ++ [s.name]) res2 hcr n
          simp only [List.mem_append, List.mem_singleton] at ihr
          by_cases hn : n = s.name
          · subst hn
            simp [hm]
          · simp only [List.map_cons, List.mem_cons]
            constructor
            · rintro (h1 | h1)
              · exact absurd h1 hn
              · have := ihr.mp h1
                exact ⟨Or.inr this.1, fun hseen => this.2 (Or.inl hseen)⟩
            · rintro ⟨h1 | h1, h2⟩
              · exact absurd h1 hn
              · exact Or.inr (ihr.mpr ⟨h1, fun hc => hc.elim h2 hn⟩)

theorem get_statuses_core_nodup (l : List WireStatus) :
    ∀ (seen : List String) (res : List CommitStatus),
      get_statuses_core l seen = some res →
      (res.map CommitStatus.context).Nodup := by
  induction l with
  | nil =>
    intro seen res h
    simp [get_statuses_core] at h
    subst h
    simp
  | cons s rest ih =>
    intro seen res h
    simp only [get_statuses_core] at h
    by_cases hm : s.name ∈ seen
    · rw [if_pos hm] at h
      exact ih seen res h
    · rw [if_neg hm] at h
      cases hinv : INV_GL_STATE_TRANSLATION s.status with
      | none => rw [hinv] at h; cases h
      | some st =>
        rw [hinv] at h
        cases hcr : get_statuses_core rest (seen ++ [s.name]) with
        | none => rw [hcr] at h; cases h
        | some res2 =>
          rw [hcr] at h
          simp only [Option.map_some', Option.some.injEq] at h
          subst h
          simp only [List.map_cons, List.nodup_cons]
          refine ⟨?_, ih _ _ hcr⟩
          intro hmem
          have := ((get_statuses_core_mem rest (seen ++ [s.name]) res2 hcr
            s.name).mp hmem).2
          exact this (List.mem_append_right _ (List.mem_singleton.mpr rfl))

theorem get_statuses_core_first (l : List WireStatus) :
    ∀ (seen : List String) (res : List CommitStatus),
      get_statuses_core l seen = some res →
      ∀ c ∈ res, ∃ s, (l.filter (fun t => t.name = c.context)).head? = some s ∧
        translateStatus s = some c := by
  induction l with
  | nil =>
    intro seen res h c hc
    simp [get_statuses_core] at h
    subst h
    simp at hc
  | cons s rest ih =>
    intro seen res h c hc
    simp only [get_statuses_core] at h
    by_cases hm : s.name ∈ seen
    · rw [if_pos hm] at h
      obtain ⟨t, ht1, ht2⟩ := ih seen res h c hc
      have hcc : c.context ∈ res.map CommitStatus.context :=
        List.mem_map_of_mem _ hc
      have hnin := (get_statuses_core_mem rest seen res h c.context).mp hcc
      have hne : ¬ (s.name = c.context) := fun e => hnin.2 (e ▸ hm)
      refine ⟨t, ?_, ht2⟩
      rw [List.filter_cons, if_neg (by simp [hne])]
      exact ht1
    · rw [if_neg hm] at h
      cases hinv : INV_GL_STATE_TRANSLATION s.status with
      | none => rw [hinv] at h; cases h
      | some st =>
        rw [hinv] at h
        cases hcr : get_statuses_core rest (seen ++ [s.name]) with
        | none => rw [hcr] at h; cases h
        | some res2 =>
          rw [hcr] at h
          simp only [Option.map_some', Option.some.injEq] at h
          subst h
          rcases List.mem_cons.mp hc with hc1 | hc2
          · subst hc1
            refine ⟨s, ?_, ?_⟩
            · rw [List.filter_cons, if_pos (by simp)]
              rfl
            · simp [translateStatus, hinv]
          · obtain ⟨t, ht1, ht2⟩ := ih _ _ hcr c hc2
            have hcc : c.context ∈ res2.map CommitStatus.context :=
              List.mem_map_of_mem _ hc2
            have hnin := (get_statuses_core_mem rest (seen ++ [s.name]) res2
              hcr c.context).mp hcc
            have hne : ¬ (s.name = c.context) := fun e =>
              hnin.2 (List.mem_append_right _ (List.mem_singleton.mpr e.symm))
            refine ⟨t, ?_, ht2⟩
            rw [List.filter_cons, if_neg (by simp [hne])]
            exact ht1

/-- C2: `get_statuses` keeps exactly one `CommitStatus` per distinct provider
status name — the set of kept contexts equals the set of listed names, contexts
are pairwise distinct, each kept entry is the translation of the first provider
item bearing its name, and the result size is the number of distinct names; in
particular three statuses sharing one name plus one with a distinct name yield
exactly 2 entries. -/
theorem claim2_status_dedup :
    (∀ statuses : List WireStatus,
      (∀ s ∈ statuses, (INV_GL_STATE_TRANSLATION s.status).isSome = true) →
      ∃ res, get_statuses statuses = some res ∧
        (res.map CommitStatus.context).Nodup ∧
        (∀ n, n ∈ res.map CommitStatus.context ↔ n ∈ statuses.map WireStatus.name) ∧
        (∀ c ∈ res, ∃ s,
          (statuses.filter (fun t => t.name = c.context)).head? = some s ∧
          translateStatus s = some c) ∧
        res.length = (statuses.map WireStatus.name).toFinset.card) ∧
    (∀ a b c d : WireStatus,
      (∀ s ∈ [a, b, c, d], (INV_GL_STATE_TRANSLATION s.status).isSome = true) →
      b.name = a.name → c.name = a.name → d.name ≠ a.name →
      ∃ res, get_statuses [a, b, c, d] = some res ∧ res.length = 2) := by
  have main : ∀ statuses : List WireStatus,
      (∀ s ∈ statuses, (INV_GL_STATE_TRANSLATION s.status).isSome = true) →
      ∃ res, get_statuses statuses = some res ∧
        (res.map CommitStatus.context).Nodup ∧
        (∀ n, n ∈ res.map CommitStatus.context ↔ n ∈ statuses.map WireStatus.name) ∧
        (∀ c ∈ res, ∃ s,
          (statuses.filter (fun t => t.name = c.context)).head? = some s ∧
          translateStatus s = some c) ∧
        res.length = (statuses.map WireStatus.name).toFinset.card := by
    intro statuses hv
    have hsome := get_statuses_core_isSome statuses hv []
    cases hcr : get_statuses_core statuses [] with
    | none => rw [hcr] at hsome; cases hsome
    | some res =>
      have hget : get_statuses statuses = some res := by
        rw [get_statuses, get_statuses_go_eq_core, hcr]
        simp
      have hnd := get_statuses_core_nodup statuses [] res hcr
      have hmem : ∀ n, n ∈ res.map CommitStatus.context ↔
          n ∈ statuses.map WireStatus.name := by
        intro n
        have := get_statuses_core_mem statuses [] res hcr n
        simpa using this
      refine ⟨res, hget, hnd, hmem, get_statuses_core_first statuses [] res hcr, ?_⟩
      have hfin : (res.map CommitStatus.context).toFinset =
          (statuses.map WireStatus.name).toFinset := by
        ext n
        simp only [List.mem_toFinset]
        exact hmem n
      calc res.length = (res.map CommitStatus.context).length :=
          (List.length_map _ _).symm
        _ = (res.map CommitStatus.context).toFinset.card :=
          (List.toFinset_card_of_nodup hnd).symm
        _ = (statuses.map WireStatus.name).toFinset.card := by rw [hfin]
  refine ⟨main, ?_⟩
  intro a b c d hv hb hc hd
  obtain ⟨res, h1, _, _, _, hlen⟩ := main [a, b, c, d] hv
  refine ⟨res, h1, ?_⟩
  rw [hlen]
  have hnames : ([a, b, c, d].map WireStatus.name) =
      [a.name, a.name, a.name, d.name] := by
    simp [hb, hc]
  rw [hnames]
  rw [show ([a.name, a.name, a.name, d.name] : List String).toFinset =
      insert a.name {d.name} from by
    simp [List.toFinset_cons, Finset.insert_idem]]
  rw [Finset.card_insert_of_not_mem (by
    simp only [Finset.mem_singleton]
    exact fun e => hd e.symm)]
  simp

/-- C2 witness: of three `ci` statuses and one `lint` status, exactly two
entries survive. -/
theorem claim2_status_dedup_witness :
    ∃ res, get_statuses
      [⟨"success", "d1", "ci", "u1"⟩, ⟨"failed", "d2", "ci", "u2"⟩,
       ⟨"pending", "d3", "ci", "u3"⟩, ⟨"success", "d4", "lint", "u4"⟩] = some res ∧
      res.length = 2 :=
  claim2_status_dedup.2 ⟨"success", "d1", "ci", "u1"⟩ ⟨"failed", "d2", "ci", "u2"⟩
    ⟨"pending", "d3", "ci", "u3"⟩ ⟨"success", "d4", "lint", "u4"⟩
    (by decide) rfl rfl (by decide)

end IGitt
